import Mathlib

/-!
Verification of the inverted-pendulum fuzzy-control simulation (TP2.py).

The pendulum dynamics, the angle normalization, the integration loop and the
fuzzy variable / rule declarations are translated directly from the source.
The Mamdani inference engine itself lives in the external skfuzzy library, so
its pipeline (fuzzification, min-AND firing, max aggregation per consequent,
discrete centroid defuzzification with a zero-denominator guard) is modelled
from the specification.

Real-valued (float) quantities are embedded as real numbers.  A rational
mirror of the force-side computations makes concrete inferences computable.
-/

namespace TP2

/-- The five linguistic labels shared by the three fuzzy variables. -/
inductive Label where | NG | NP | Z | PP | PG
deriving DecidableEq

/-- List of the five labels, in declaration order. -/
def etiquetas : List Label := [Label.NG, Label.NP, Label.Z, Label.PP, Label.PG]

/-- Rational mirror of the triangular membership function `fuzz.trimf`
(left foot `a`, peak `b`, right foot `c`; the source only uses `a < b < c`). -/
def trimfQ (a b c x : ℚ) : ℚ :=
  if x ≤ a then 0
  else if x ≤ b then (x - a) / (b - a)
  else if x < c then (c - x) / (c - b)
  else 0

/-- Rational mirror of the trapezoidal membership function `fuzz.trapmf`
(feet `a`, `d`, plateau from `b` to `c`; the source uses `a = b` or `c = d`
for the saturated outer sets, where the plateau includes the shared foot). -/
def trapmfQ (a b c d x : ℚ) : ℚ :=
  if x < a then 0
  else if x < b then (x - a) / (b - a)
  else if x ≤ c then 1
  else if x < d then (d - x) / (d - c)
  else 0

/-- Rational mirror of the five membership functions of the output variable
`fuerza` (universe `np.arange(-50, 50, 0.5)`). -/
def fuerza_mfQ : Label → ℚ → ℚ
  | Label.NG => trapmfQ (-50) (-50) (-20) (-10)
  | Label.NP => trimfQ (-20) (-10) 0
  | Label.Z => trimfQ (-10) 0 10
  | Label.PP => trimfQ 0 10 20
  | Label.PG => trapmfQ 10 20 50 50

/-- Rational mirror of the sampled force universe `np.arange(-50, 50, 0.5)`:
200 points `-50, -49.5, ..., 49.5`. -/
def fuerza_universoQ (k : ℕ) : ℚ := -50 + k / 2

/-- Rational mirror of the aggregated output membership: pointwise maximum of
the five output sets, each clipped at its aggregated rule strength. -/
def membresia_agregadaQ (s : Label → ℚ) (u : ℚ) : ℚ :=
  (etiquetas.map fun e => min (s e) (fuerza_mfQ e u)).foldr max 0

/-- Rational mirror of the defuzzification denominator. -/
def defuzz_denQ (s : Label → ℚ) : ℚ :=
  ((List.range 200).map fun k => membresia_agregadaQ s (fuerza_universoQ k)).sum

/-- Rational mirror of the defuzzification numerator. -/
def defuzz_numQ (s : Label → ℚ) : ℚ :=
  ((List.range 200).map fun k => fuerza_universoQ k * membresia_agregadaQ s (fuerza_universoQ k)).sum

/-- Rational mirror of centroid defuzzification with the zero-denominator
guard returning force 0. -/
def defuzzQ (s : Label → ℚ) : ℚ :=
  if defuzz_denQ s = 0 then 0 else defuzz_numQ s / defuzz_denQ s

/-- A strength vector over the five labels, given componentwise. -/
def svecQ (n1 n2 z p1 p2 : ℚ) : Label → ℚ
  | Label.NG => n1
  | Label.NP => n2
  | Label.Z => z
  | Label.PP => p1
  | Label.PG => p2

noncomputable section

/-! ## Physical parameters (section 1 of the source) -/

/-- `gravedad = 9.81` — gravitational acceleration. -/
def gravedad : ℝ := 9.81

/-- `masa_carro = 1.0` — cart mass. -/
def masa_carro : ℝ := 1.0

/-- `masa_pendulo = 0.2` — pendulum mass. -/
def masa_pendulo : ℝ := 0.2

/-- `longitud = 0.5` — pendulum length. -/
def longitud : ℝ := 0.5

/-- `paso_tiempo = 0.01` — integration time step. -/
def paso_tiempo : ℝ := 0.01

/-- `tiempo_simulacion = 15` — total simulated time. -/
def tiempo_simulacion : ℝ := 15

/-- `pasos = int(tiempo_simulacion / paso_tiempo)` — number of steps. -/
def pasos : ℕ := (⌊tiempo_simulacion / paso_tiempo⌋).toNat

/-! ## Membership functions and fuzzy variables (section 2 of the source) -/

/-- `np.radians`: degrees to radians. -/
def radianes (x : ℝ) : ℝ := x * Real.pi / 180

/-- `np.degrees`: radians to degrees. -/
def grados (x : ℝ) : ℝ := x * 180 / Real.pi

/-- Triangular membership function `fuzz.trimf(u, [a, b, c])` evaluated at a
point: ramp up on `[a, b]`, ramp down on `[b, c]`, zero outside `[a, c]`
(the source only instantiates it with `a < b < c`). -/
def trimf (a b c x : ℝ) : ℝ :=
  if x ≤ a then 0
  else if x ≤ b then (x - a) / (b - a)
  else if x < c then (c - x) / (c - b)
  else 0

/-- Trapezoidal membership function `fuzz.trapmf(u, [a, b, c, d])` evaluated
at a point: ramp up on `[a, b]`, plateau at 1 on `[b, c]`, ramp down on
`[c, d]`, zero outside; with `a = b` or `c = d` the plateau includes the
shared foot, matching the saturated outer sets of the source. -/
def trapmf (a b c d x : ℝ) : ℝ :=
  if x < a then 0
  else if x < b then (x - a) / (b - a)
  else if x ≤ c then 1
  else if x < d then (d - x) / (d - c)
  else 0

/-- The five membership functions of the input variable `angulo`
(universe `np.arange(-2.5*np.pi, 2.5*np.pi, 0.01)`). -/
def angulo_mf : Label → ℝ → ℝ
  | Label.NG => trapmf (-(2.5 * Real.pi)) (-(2.5 * Real.pi)) (-Real.pi) (-(radianes 150))
  | Label.NP => trimf (-Real.pi) (-(radianes 90)) 0
  | Label.Z => trimf (-(radianes 30)) 0 (radianes 30)
  | Label.PP => trimf 0 (radianes 90) Real.pi
  | Label.PG => trapmf (radianes 150) Real.pi (2.5 * Real.pi) (2.5 * Real.pi)

/-- The five membership functions of the input variable `velocidad_angular`
(universe `np.arange(-10, 10, 0.1)`). -/
def velocidad_mf : Label → ℝ → ℝ
  | Label.NG => trapmf (-10) (-10) (-4) (-1)
  | Label.NP => trimf (-4) (-1) 0
  | Label.Z => trimf (-1) 0 1
  | Label.PP => trimf 0 1 4
  | Label.PG => trapmf 1 4 10 10

/-- The five membership functions of the output variable `fuerza`
(universe `np.arange(-50, 50, 0.5)`). -/
def fuerza_mf : Label → ℝ → ℝ
  | Label.NG => trapmf (-50) (-50) (-20) (-10)
  | Label.NP => trimf (-20) (-10) 0
  | Label.Z => trimf (-10) 0 10
  | Label.PP => trimf 0 10 20
  | Label.PG => trapmf 10 20 50 50

/-- The sampled force universe `np.arange(-50, 50, 0.5)`:
200 points `-50, -49.5, ..., 49.5`. -/
def fuerza_universo (k : ℕ) : ℝ := -50 + (k : ℝ) / 2

/-! ## Rule base (section 3 of the source) -/

/-- The 15 rules `ctrl.Rule(angulo[La] & velocidad_angular[Lv], fuerza[Lf])`
as triples `(La, Lv, Lf)`, in source order. -/
def reglas : List (Label × Label × Label) :=
  [(Label.NG, Label.NG, Label.PG),
   (Label.NG, Label.NP, Label.PG),
   (Label.NG, Label.Z, Label.PP),
   (Label.NP, Label.NG, Label.PG),
   (Label.NP, Label.NP, Label.PP),
   (Label.NP, Label.Z, Label.PP),
   (Label.Z, Label.NG, Label.PP),
   (Label.Z, Label.NP, Label.PP),
   (Label.Z, Label.Z, Label.Z),
   (Label.PP, Label.Z, Label.NP),
   (Label.PP, Label.PP, Label.NP),
   (Label.PP, Label.PG, Label.NG),
   (Label.PG, Label.Z, Label.NP),
   (Label.PG, Label.PP, Label.NG),
   (Label.PG, Label.PG, Label.NG)]

/-! ## Inference engine (modelled from the spec, section 4.4)

The skfuzzy `ControlSystemSimulation.compute` pipeline is external library
code.  Modelled from the spec: fuzzification evaluates each label's
membership function at the crisp input; a rule's firing strength is the
minimum of its two antecedent degrees; each output label's aggregated
strength is the maximum over the rules concluding it; the output membership
is the pointwise maximum of the five clipped output sets; defuzzification is
the discrete centroid over the sampled force universe, returning 0 when the
aggregated membership sums to zero. -/

/-- Firing strength of one rule: fuzzy AND via minimum. -/
def fuerza_activacion (a v : ℝ) (r : Label × Label × Label) : ℝ :=
  min (angulo_mf r.1 a) (velocidad_mf r.2.1 v)

/-- Aggregated strength of an output label: maximum of the firing strengths
of the rules concluding that label (0 when no such rule exists). -/
def agregado (a v : ℝ) (s : Label) : ℝ :=
  ((reglas.filter fun r => r.2.2 == s).map (fuerza_activacion a v)).foldr max 0

/-- Aggregated output membership at a sample point: pointwise maximum of the
five output sets, each clipped at its aggregated strength. -/
def membresia_agregada (s : Label → ℝ) (u : ℝ) : ℝ :=
  (etiquetas.map fun e => min (s e) (fuerza_mf e u)).foldr max 0

/-- Defuzzification numerator over the sampled force universe. -/
def defuzz_num (s : Label → ℝ) : ℝ :=
  ((List.range 200).map fun k => fuerza_universo k * membresia_agregada s (fuerza_universo k)).sum

/-- Defuzzification denominator over the sampled force universe. -/
def defuzz_den (s : Label → ℝ) : ℝ :=
  ((List.range 200).map fun k => membresia_agregada s (fuerza_universo k)).sum

/-- Centroid defuzzification with the zero-denominator guard returning 0. -/
def defuzz (s : Label → ℝ) : ℝ :=
  if defuzz_den s = 0 then 0 else defuzz_num s / defuzz_den s

/-- The crisp inference: fuzzify both inputs, evaluate the rules, aggregate
and defuzzify.  Pure function of the two inputs. -/
def inferir (a v : ℝ) : ℝ := defuzz (agregado a v)

/-- The mirror involution on labels (`NG <-> PG`, `NP <-> PP`, `Z` fixed),
describing the left-right symmetry of the three fuzzy partitions. -/
def Label.espejo : Label → Label
  | Label.NG => Label.PG
  | Label.NP => Label.PP
  | Label.Z => Label.Z
  | Label.PP => Label.NP
  | Label.PG => Label.NG

/-- A real strength vector over the five labels, given componentwise. -/
def svec (n1 n2 z p1 p2 : ℝ) : Label → ℝ
  | Label.NG => n1
  | Label.NP => n2
  | Label.Z => z
  | Label.PP => p1
  | Label.PG => p2

/-! ## Auxiliary functions (section 5 of the source) -/

/-- `normalizar_angulo`: `(angulo_rad + np.pi) % (2*np.pi) - np.pi`, with the
Python float modulo `x % y = x - y*floor(x/y)` (sign of the divisor). -/
def normalizar_angulo (angulo_rad : ℝ) : ℝ :=
  (angulo_rad + Real.pi) - 2 * Real.pi * ⌊(angulo_rad + Real.pi) / (2 * Real.pi)⌋ - Real.pi

/-- `calcular_fuerza`: normalize the angle, assign both antecedents and
compute; the `except` branch of the source is subsumed by the
zero-denominator guard of `defuzz` (spec, sections 4.4 and 9). -/
def calcular_fuerza (angulo_rad velocidad : ℝ) : ℝ :=
  inferir (normalizar_angulo angulo_rad) velocidad

/-- `calcular_aceleracion_angular`: cart-pole angular acceleration. -/
def calcular_aceleracion_angular (angulo_rad velocidad fuerza_aplicada : ℝ) : ℝ :=
  let angulo_norm := normalizar_angulo angulo_rad
  let numerador := gravedad * Real.sin angulo_norm +
    Real.cos angulo_norm *
      ((-fuerza_aplicada - masa_pendulo * longitud * velocidad ^ 2 * Real.sin angulo_norm) /
        (masa_carro + masa_pendulo))
  let denominador := longitud *
    (4 / 3 - masa_pendulo * Real.cos angulo_norm ^ 2 / (masa_carro + masa_pendulo))
  numerador / denominador

/-! ## The mutable simulator object (section 4 of the source)

`simulador = ctrl.ControlSystemSimulation(sistema_control)` is a single
shared object whose inputs are assigned and whose `compute` method is called
on every `calcular_fuerza` invocation.  Its state is the pair of assigned
antecedent values and the last computed output. -/

/-- State of the shared `ctrl.ControlSystemSimulation` object. -/
structure Simulador where
  entrada_angulo : ℝ
  entrada_velocidad : ℝ
  salida_fuerza : ℝ

/-- `simulador.compute()`: recompute the output from the currently assigned
inputs (the fixed rule base is the only other data consulted). -/
def Simulador.compute (s : Simulador) : Simulador :=
  { s with salida_fuerza := inferir s.entrada_angulo s.entrada_velocidad }

/-- `calcular_fuerza` acting on the shared simulator object: assign the
normalized angle and the velocity, call `compute`, read `output['fuerza']`.
Returns the result together with the updated object state. -/
def calcular_fuerza_sim (angulo_rad velocidad : ℝ) (s : Simulador) : ℝ × Simulador :=
  let s1 := { s with entrada_angulo := normalizar_angulo angulo_rad,
                     entrada_velocidad := velocidad }
  let s2 := s1.compute
  (s2.salida_fuerza, s2)

/-! ## Simulation loop (section 6 of the source) -/

/-- One iteration of the simulation loop: compute the force from the current
state, the angular acceleration from the current state and that force, then
update velocity and angle.  Returns (new angle, new velocity, applied force). -/
def paso (angulo_actual velocidad_actual : ℝ) : ℝ × ℝ × ℝ :=
  let fuerza_aplicada := calcular_fuerza angulo_actual velocidad_actual
  let aceleracion_angular :=
    calcular_aceleracion_angular angulo_actual velocidad_actual fuerza_aplicada
  let velocidad2 := velocidad_actual + aceleracion_angular * paso_tiempo
  let angulo2 := angulo_actual + velocidad2 * paso_tiempo +
    0.5 * aceleracion_angular * paso_tiempo ^ 2
  (angulo2, velocidad2, fuerza_aplicada)

/-- State (angle, velocity) reached after `n` iterations of the loop. -/
def estado (angulo0 velocidad0 : ℝ) : ℕ → ℝ × ℝ
  | 0 => (angulo0, velocidad0)
  | n + 1 =>
    let s := estado angulo0 velocidad0 n
    let p := paso s.1 s.2
    (p.1, p.2.1)

/-- The history lists produced by `n` iterations of the loop from a given
state, in chronological order: per step the loop appends
`degrees(normalizar_angulo(angulo))`, `degrees(velocidad)` (post-update) and
the applied force (pre-update). -/
def bucle (angulo_actual velocidad_actual : ℝ) : ℕ → List ℝ × List ℝ × List ℝ
  | 0 => ([], [], [])
  | n + 1 =>
    let p := paso angulo_actual velocidad_actual
    let resto := bucle p.1 p.2.1 n
    (grados (normalizar_angulo p.1) :: resto.1,
     grados p.2.1 :: resto.2.1,
     p.2.2 :: resto.2.2)

/-- `simular(angulo_inicial_grados, velocidad_inicial)`: run the loop for
`pasos` steps from the given initial conditions and return the three history
lists (angles in degrees, velocities in degrees/s, forces in newtons). -/
def simular (angulo_inicial_grados velocidad_inicial : ℝ) : List ℝ × List ℝ × List ℝ :=
  bucle (radianes angulo_inicial_grados) velocidad_inicial pasos

end

end TP2

namespace TP2

/-! ## Properties of the angle normalization -/

/-- `normalizar_angulo` always lands in the half-open interval `[-pi, pi)`. -/
theorem normalizar_mem (θ : ℝ) :
    -Real.pi ≤ normalizar_angulo θ ∧ normalizar_angulo θ < Real.pi := by
  have h2π : (0:ℝ) < 2 * Real.pi := by positivity
  have h1 : ((⌊(θ + Real.pi) / (2 * Real.pi)⌋ : ℤ) : ℝ) ≤ (θ + Real.pi) / (2 * Real.pi) :=
    Int.floor_le _
  have h2 : (θ + Real.pi) / (2 * Real.pi) < (⌊(θ + Real.pi) / (2 * Real.pi)⌋ : ℤ) + 1 :=
    Int.lt_floor_add_one _
  have h1' := (le_div_iff₀ h2π).mp h1
  have h2' := (div_lt_iff₀ h2π).mp h2
  unfold normalizar_angulo
  constructor
  · nlinarith
  · nlinarith

/-- Points already in `[-pi, pi)` are fixed by `normalizar_angulo`. -/
theorem normalizar_eq_self {x : ℝ} (h1 : -Real.pi ≤ x) (h2 : x < Real.pi) :
    normalizar_angulo x = x := by
  have h2π : (0:ℝ) < 2 * Real.pi := by positivity
  have hfl : ⌊(x + Real.pi) / (2 * Real.pi)⌋ = 0 := by
    rw [Int.floor_eq_zero_iff, Set.mem_Ico]
    constructor
    · exact div_nonneg (by linarith) (le_of_lt h2π)
    · exact (div_lt_one h2π).mpr (by linarith)
  unfold normalizar_angulo
  rw [hfl]
  push_cast
  ring

/-- `normalizar_angulo 0 = 0`. -/
theorem normalizar_cero : normalizar_angulo 0 = 0 :=
  normalizar_eq_self (by linarith [Real.pi_pos]) Real.pi_pos

/-- `normalizar_angulo pi = -pi`: the branch point maps to the left end. -/
theorem normalizar_pi : normalizar_angulo Real.pi = -Real.pi := by
  have h2π : (2 * Real.pi) ≠ 0 := by positivity
  have hq : (Real.pi + Real.pi) / (2 * Real.pi) = 1 := by
    rw [div_eq_one_iff_eq h2π]; ring
  unfold normalizar_angulo
  rw [hq, Int.floor_one]
  push_cast
  ring

/-- Adding an integer multiple of `2*pi` does not change the normalization. -/
theorem normalizar_add_two_pi_int (θ : ℝ) (k : ℤ) :
    normalizar_angulo (θ + 2 * Real.pi * k) = normalizar_angulo θ := by
  have h2π : (2 * Real.pi) ≠ 0 := by positivity
  have hq : (θ + 2 * Real.pi * k + Real.pi) / (2 * Real.pi)
      = (θ + Real.pi) / (2 * Real.pi) + k := by
    field_simp
    ring
  unfold normalizar_angulo
  rw [hq, Int.floor_add_int]
  push_cast
  ring

/-- Every angle differs from its normalization by an integer multiple of `2*pi`. -/
theorem normalizar_decomp (θ : ℝ) : ∃ m : ℤ, θ = normalizar_angulo θ + 2 * Real.pi * m := by
  refine ⟨⌊(θ + Real.pi) / (2 * Real.pi)⌋, ?_⟩
  unfold normalizar_angulo
  ring

/-- Away from the branch point, normalization commutes with negation. -/
theorem normalizar_neg {θ : ℝ} (h : -Real.pi < normalizar_angulo θ) :
    normalizar_angulo (-θ) = -normalizar_angulo θ := by
  obtain ⟨m, hm⟩ := normalizar_decomp θ
  have hrw : -θ = -normalizar_angulo θ + 2 * Real.pi * ((-m : ℤ) : ℝ) := by
    push_cast
    linarith [hm]
  rw [hrw, normalizar_add_two_pi_int]
  exact normalizar_eq_self (by linarith [(normalizar_mem θ).2]) (by linarith)

/-! ## Range of the membership functions -/

theorem trimf_nonneg (a b c x : ℝ) : 0 ≤ trimf a b c x := by
  unfold trimf
  split_ifs with h1 h2 h3
  · exact le_refl 0
  · exact div_nonneg (by linarith) (by linarith)
  · exact div_nonneg (by linarith) (by linarith)
  · exact le_refl 0

theorem trimf_le_one (a b c x : ℝ) : trimf a b c x ≤ 1 := by
  unfold trimf
  split_ifs with h1 h2 h3
  · norm_num
  · exact div_le_one_of_le₀ (by linarith) (by linarith)
  · exact div_le_one_of_le₀ (by linarith) (by linarith)
  · norm_num

theorem trapmf_nonneg (a b c d x : ℝ) : 0 ≤ trapmf a b c d x := by
  unfold trapmf
  split_ifs with h1 h2 h3 h4
  · exact le_refl 0
  · exact div_nonneg (by linarith) (by linarith)
  · norm_num
  · exact div_nonneg (by linarith) (by linarith)
  · exact le_refl 0

theorem trapmf_le_one (a b c d x : ℝ) : trapmf a b c d x ≤ 1 := by
  unfold trapmf
  split_ifs with h1 h2 h3 h4
  · norm_num
  · exact div_le_one_of_le₀ (by linarith) (by linarith)
  · norm_num
  · exact div_le_one_of_le₀ (by linarith) (by linarith)
  · norm_num

theorem angulo_mf_nonneg (e : Label) (x : ℝ) : 0 ≤ angulo_mf e x := by
  cases e <;> simp only [angulo_mf] <;>
    first
      | exact trimf_nonneg _ _ _ _
      | exact trapmf_nonneg _ _ _ _ _

theorem angulo_mf_le_one (e : Label) (x : ℝ) : angulo_mf e x ≤ 1 := by
  cases e <;> simp only [angulo_mf] <;>
    first
      | exact trimf_le_one _ _ _ _
      | exact trapmf_le_one _ _ _ _ _

theorem velocidad_mf_nonneg (e : Label) (x : ℝ) : 0 ≤ velocidad_mf e x := by
  cases e <;> simp only [velocidad_mf] <;>
    first
      | exact trimf_nonneg _ _ _ _
      | exact trapmf_nonneg _ _ _ _ _

theorem velocidad_mf_le_one (e : Label) (x : ℝ) : velocidad_mf e x ≤ 1 := by
  cases e <;> simp only [velocidad_mf] <;>
    first
      | exact trimf_le_one _ _ _ _
      | exact trapmf_le_one _ _ _ _ _

theorem fuerza_mf_nonneg (e : Label) (x : ℝ) : 0 ≤ fuerza_mf e x := by
  cases e <;> simp only [fuerza_mf] <;>
    first
      | exact trimf_nonneg _ _ _ _
      | exact trapmf_nonneg _ _ _ _ _

/-! ## Reflection of the membership functions -/

/-- A triangular set evaluated at `-x` equals the mirrored triangular set at
`x` (for strictly ordered parameters, the only case the source uses). -/
theorem trimf_neg (a b c x : ℝ) (hab : a < b) (hbc : b < c) :
    trimf a b c (-x) = trimf (-c) (-b) (-a) x := by
  have hba : b - a ≠ 0 := by linarith
  have hcb : c - b ≠ 0 := by linarith
  unfold trimf
  split_ifs <;>
    first
      | ring1
      | linarith
      | (have hx : x = -b := by linarith
         subst hx
         field_simp
         exact (div_self (show (-b + c : ℝ) ≠ 0 from fun hh => hcb (by linarith))).symm)

/-- A trapezoidal set evaluated at `-x` equals the mirrored trapezoidal set
at `x` (for monotone parameters). -/
theorem trapmf_neg (a b c d x : ℝ) (hab : a ≤ b) (hbc : b ≤ c) (hcd : c ≤ d) :
    trapmf a b c d (-x) = trapmf (-d) (-c) (-b) (-a) x := by
  unfold trapmf
  split_ifs <;>
    first
      | ring1
      | linarith
      | (have hx : x = -a := by linarith
         subst hx
         ring1)
      | (have hx : x = -d := by linarith
         subst hx
         ring1)

/-! ## Aggregation: unfolding and range -/

theorem foldr_max_nonneg (l : List ℝ) : 0 ≤ l.foldr max 0 := by
  induction l with
  | nil => exact le_refl 0
  | cons h t ih => exact le_trans ih (le_max_right h _)

theorem agregado_nonneg (a v : ℝ) (e : Label) : 0 ≤ agregado a v e :=
  foldr_max_nonneg _

theorem membresia_agregada_nonneg (s : Label → ℝ) (u : ℝ) : 0 ≤ membresia_agregada s u :=
  foldr_max_nonneg _

theorem agregado_NG (a v : ℝ) : agregado a v Label.NG =
    max (fuerza_activacion a v (Label.PP, Label.PG, Label.NG))
      (max (fuerza_activacion a v (Label.PG, Label.PP, Label.NG))
        (max (fuerza_activacion a v (Label.PG, Label.PG, Label.NG)) 0)) := rfl

theorem agregado_NP (a v : ℝ) : agregado a v Label.NP =
    max (fuerza_activacion a v (Label.PP, Label.Z, Label.NP))
      (max (fuerza_activacion a v (Label.PP, Label.PP, Label.NP))
        (max (fuerza_activacion a v (Label.PG, Label.Z, Label.NP)) 0)) := rfl

theorem agregado_Z (a v : ℝ) : agregado a v Label.Z =
    max (fuerza_activacion a v (Label.Z, Label.Z, Label.Z)) 0 := rfl

theorem agregado_PP (a v : ℝ) : agregado a v Label.PP =
    max (fuerza_activacion a v (Label.NG, Label.Z, Label.PP))
      (max (fuerza_activacion a v (Label.NP, Label.NP, Label.PP))
        (max (fuerza_activacion a v (Label.NP, Label.Z, Label.PP))
          (max (fuerza_activacion a v (Label.Z, Label.NG, Label.PP))
            (max (fuerza_activacion a v (Label.Z, Label.NP, Label.PP)) 0)))) := rfl

theorem agregado_PG (a v : ℝ) : agregado a v Label.PG =
    max (fuerza_activacion a v (Label.NG, Label.NG, Label.PG))
      (max (fuerza_activacion a v (Label.NG, Label.NP, Label.PG))
        (max (fuerza_activacion a v (Label.NP, Label.NG, Label.PG)) 0)) := rfl

theorem membresia_agregada_unfold (s : Label → ℝ) (u : ℝ) :
    membresia_agregada s u =
      max (min (s Label.NG) (fuerza_mf Label.NG u))
        (max (min (s Label.NP) (fuerza_mf Label.NP u))
          (max (min (s Label.Z) (fuerza_mf Label.Z u))
            (max (min (s Label.PP) (fuerza_mf Label.PP u))
              (max (min (s Label.PG) (fuerza_mf Label.PG u)) 0)))) := rfl

theorem sum_map_range {M : Type} [AddCommMonoid M] (f : ℕ → M) (n : ℕ) :
    ((List.range n).map f).sum = ∑ k ∈ Finset.range n, f k := by
  induction n with
  | zero => simp
  | succ n ih =>
    rw [List.range_succ, List.map_append, List.sum_append, Finset.sum_range_succ, ih]
    simp

/-! ## Membership values at concrete inputs -/

theorem angulo_mf_NG_cero : angulo_mf Label.NG 0 = 0 := by
  have hπ := Real.pi_pos
  simp only [angulo_mf, trapmf, radianes]
  rw [if_neg (by linarith), if_neg (by linarith), if_neg (by linarith), if_neg (by linarith)]

theorem angulo_mf_NP_cero : angulo_mf Label.NP 0 = 0 := by
  have hπ := Real.pi_pos
  simp only [angulo_mf, trimf, radianes]
  rw [if_neg (by linarith), if_neg (by linarith), if_neg (by norm_num)]

theorem angulo_mf_Z_cero : angulo_mf Label.Z 0 = 1 := by
  have hπ := Real.pi_pos
  simp only [angulo_mf, trimf, radianes]
  rw [if_neg (by linarith), if_pos (le_refl (0:ℝ)), div_self (ne_of_gt (by linarith))]

theorem angulo_mf_PP_cero : angulo_mf Label.PP 0 = 0 := by
  simp only [angulo_mf, trimf, radianes]
  rw [if_pos (le_refl (0:ℝ))]

theorem angulo_mf_PG_cero : angulo_mf Label.PG 0 = 0 := by
  have hπ := Real.pi_pos
  simp only [angulo_mf, trapmf, radianes]
  rw [if_pos (by linarith)]

theorem velocidad_mf_NG_cero : velocidad_mf Label.NG 0 = 0 := by
  norm_num [velocidad_mf, trapmf]

theorem velocidad_mf_NP_cero : velocidad_mf Label.NP 0 = 0 := by
  norm_num [velocidad_mf, trimf]

theorem velocidad_mf_Z_cero : velocidad_mf Label.Z 0 = 1 := by
  norm_num [velocidad_mf, trimf]

theorem velocidad_mf_PP_cero : velocidad_mf Label.PP 0 = 0 := by
  norm_num [velocidad_mf, trimf]

theorem velocidad_mf_PG_cero : velocidad_mf Label.PG 0 = 0 := by
  norm_num [velocidad_mf, trapmf]

theorem velocidad_mf_NG_dos : velocidad_mf Label.NG 2 = 0 := by
  norm_num [velocidad_mf, trapmf]

theorem velocidad_mf_NP_dos : velocidad_mf Label.NP 2 = 0 := by
  norm_num [velocidad_mf, trimf]

theorem velocidad_mf_Z_dos : velocidad_mf Label.Z 2 = 0 := by
  norm_num [velocidad_mf, trimf]

theorem velocidad_mf_PP_dos : velocidad_mf Label.PP 2 = 2 / 3 := by
  norm_num [velocidad_mf, trimf]

theorem velocidad_mf_PG_dos : velocidad_mf Label.PG 2 = 1 / 3 := by
  norm_num [velocidad_mf, trapmf]

theorem velocidad_mf_NG_menos_dos : velocidad_mf Label.NG (-2) = 1 / 3 := by
  norm_num [velocidad_mf, trapmf]

theorem velocidad_mf_NP_menos_dos : velocidad_mf Label.NP (-2) = 2 / 3 := by
  norm_num [velocidad_mf, trimf]

theorem velocidad_mf_Z_menos_dos : velocidad_mf Label.Z (-2) = 0 := by
  norm_num [velocidad_mf, trimf]

theorem velocidad_mf_PP_menos_dos : velocidad_mf Label.PP (-2) = 0 := by
  norm_num [velocidad_mf, trimf]

theorem velocidad_mf_PG_menos_dos : velocidad_mf Label.PG (-2) = 0 := by
  norm_num [velocidad_mf, trapmf]

theorem velocidad_mf_veinte (e : Label) : velocidad_mf e 20 = 0 := by
  cases e <;> norm_num [velocidad_mf, trimf, trapmf]

/-! ## Rational mirror agrees with the real engine on the force side -/

theorem trimfQ_cast (a b c x : ℚ) :
    ((trimfQ a b c x : ℚ) : ℝ) = trimf (a : ℝ) (b : ℝ) (c : ℝ) (x : ℝ) := by
  simp only [trimf, trimfQ, Rat.cast_le, Rat.cast_lt]
  split_ifs <;> push_cast <;> norm_num

theorem trapmfQ_cast (a b c d x : ℚ) :
    ((trapmfQ a b c d x : ℚ) : ℝ) = trapmf (a : ℝ) (b : ℝ) (c : ℝ) (d : ℝ) (x : ℝ) := by
  simp only [trapmf, trapmfQ, Rat.cast_le, Rat.cast_lt]
  split_ifs <;> push_cast <;> norm_num

theorem fuerza_mfQ_cast (e : Label) (x : ℚ) :
    ((fuerza_mfQ e x : ℚ) : ℝ) = fuerza_mf e (x : ℝ) := by
  cases e <;>
    simp only [fuerza_mf, fuerza_mfQ, trimfQ_cast, trapmfQ_cast] <;>
    norm_num

theorem fuerza_universo_cast (k : ℕ) :
    fuerza_universo k = ((fuerza_universoQ k : ℚ) : ℝ) := by
  unfold fuerza_universo fuerza_universoQ
  push_cast
  ring

theorem membresia_agregadaQ_cast (s : Label → ℚ) (u : ℚ) :
    ((membresia_agregadaQ s u : ℚ) : ℝ)
      = membresia_agregada (fun e => ((s e : ℚ) : ℝ)) (u : ℝ) := by
  simp only [membresia_agregada_unfold]
  simp only [membresia_agregadaQ, etiquetas, List.map_cons, List.map_nil, List.foldr_cons,
    List.foldr_nil]
  push_cast [Rat.cast_min, Rat.cast_max, fuerza_mfQ_cast]
  rfl

theorem defuzzQ_cast (s : Label → ℚ) :
    defuzz (fun e => ((s e : ℚ) : ℝ)) = ((defuzzQ s : ℚ) : ℝ) := by
  have hpt : ∀ k : ℕ, membresia_agregada (fun e => ((s e : ℚ) : ℝ)) (fuerza_universo k)
      = ((membresia_agregadaQ s (fuerza_universoQ k) : ℚ) : ℝ) := by
    intro k
    rw [fuerza_universo_cast, membresia_agregadaQ_cast]
  have hden : defuzz_den (fun e => ((s e : ℚ) : ℝ)) = ((defuzz_denQ s : ℚ) : ℝ) := by
    unfold defuzz_den defuzz_denQ
    rw [Rat.cast_list_sum, List.map_map]
    congr 1
    exact List.map_congr_left fun k _ => by simp [Function.comp, hpt k]
  have hnum : defuzz_num (fun e => ((s e : ℚ) : ℝ)) = ((defuzz_numQ s : ℚ) : ℝ) := by
    unfold defuzz_num defuzz_numQ
    rw [Rat.cast_list_sum, List.map_map]
    congr 1
    exact List.map_congr_left fun k _ => by
      show fuerza_universo k * membresia_agregada (fun e => ((s e : ℚ) : ℝ)) (fuerza_universo k)
        = ((fuerza_universoQ k * membresia_agregadaQ s (fuerza_universoQ k) : ℚ) : ℝ)
      rw [Rat.cast_mul, hpt k, fuerza_universo_cast]
  unfold defuzz defuzzQ
  rw [hden, hnum]
  by_cases h : defuzz_denQ s = 0
  · rw [if_pos h, if_pos (by rw [h]; norm_num)]
    norm_num
  · rw [if_neg h, if_neg (by simpa using h)]
    push_cast
    rfl

/-! ## Concrete centroid values, via the rational mirror -/

section RatEval

attribute [local semireducible] Rat.mul Rat.add Rat.sub Rat.inv

set_option maxHeartbeats 2000000 in
set_option maxRecDepth 10000 in
theorem defuzzQ_eval_Z : defuzzQ (svecQ 0 0 1 0 0) = 0 := by decide

set_option maxHeartbeats 2000000 in
set_option maxRecDepth 10000 in
theorem defuzzQ_eval_PP : defuzzQ (svecQ 0 0 0 (2/3) 0) = 10 := by decide

set_option maxHeartbeats 2000000 in
set_option maxRecDepth 10000 in
theorem defuzzQ_eval_nulo : defuzzQ (svecQ 0 0 0 0 0) = 0 := by decide

end RatEval

/-! ## Aggregated strengths at concrete inputs -/

theorem agregado_cero_cero :
    agregado 0 0 = fun e => ((svecQ 0 0 1 0 0 e : ℚ) : ℝ) := by
  funext e
  cases e <;>
    norm_num [agregado_NG, agregado_NP, agregado_Z, agregado_PP, agregado_PG,
      fuerza_activacion, svecQ, angulo_mf_NG_cero, angulo_mf_NP_cero, angulo_mf_Z_cero,
      angulo_mf_PP_cero, angulo_mf_PG_cero, velocidad_mf_NG_cero, velocidad_mf_NP_cero,
      velocidad_mf_Z_cero, velocidad_mf_PP_cero, velocidad_mf_PG_cero]

theorem agregado_cero_dos :
    agregado 0 2 = fun e => ((svecQ 0 0 0 0 0 e : ℚ) : ℝ) := by
  funext e
  cases e <;>
    norm_num [agregado_NG, agregado_NP, agregado_Z, agregado_PP, agregado_PG,
      fuerza_activacion, svecQ, angulo_mf_NG_cero, angulo_mf_NP_cero, angulo_mf_Z_cero,
      angulo_mf_PP_cero, angulo_mf_PG_cero, velocidad_mf_NG_dos, velocidad_mf_NP_dos,
      velocidad_mf_Z_dos, velocidad_mf_PP_dos, velocidad_mf_PG_dos]

theorem agregado_cero_menos_dos :
    agregado 0 (-2) = fun e => ((svecQ 0 0 0 (2/3) 0 e : ℚ) : ℝ) := by
  funext e
  cases e <;>
    norm_num [agregado_NG, agregado_NP, agregado_Z, agregado_PP, agregado_PG,
      fuerza_activacion, svecQ, angulo_mf_NG_cero, angulo_mf_NP_cero, angulo_mf_Z_cero,
      angulo_mf_PP_cero, angulo_mf_PG_cero, velocidad_mf_NG_menos_dos,
      velocidad_mf_NP_menos_dos, velocidad_mf_Z_menos_dos, velocidad_mf_PP_menos_dos,
      velocidad_mf_PG_menos_dos]

theorem agregado_cero_veinte :
    agregado 0 20 = fun e => ((svecQ 0 0 0 0 0 e : ℚ) : ℝ) := by
  funext e
  cases e <;>
    norm_num [agregado_NG, agregado_NP, agregado_Z, agregado_PP, agregado_PG,
      fuerza_activacion, svecQ, velocidad_mf_veinte,
      min_eq_right (angulo_mf_nonneg _ _)]

/-! ## Inference values at concrete inputs -/

theorem calcular_fuerza_cero_cero : calcular_fuerza 0 0 = 0 := by
  unfold calcular_fuerza inferir
  rw [normalizar_cero, agregado_cero_cero, defuzzQ_cast, defuzzQ_eval_Z]
  norm_num

theorem calcular_fuerza_cero_dos : calcular_fuerza 0 2 = 0 := by
  unfold calcular_fuerza inferir
  rw [normalizar_cero, agregado_cero_dos, defuzzQ_cast, defuzzQ_eval_nulo]
  norm_num

theorem calcular_fuerza_cero_menos_dos : calcular_fuerza 0 (-2) = 10 := by
  unfold calcular_fuerza inferir
  rw [normalizar_cero, agregado_cero_menos_dos, defuzzQ_cast, defuzzQ_eval_PP]
  norm_num

/-! ## Degenerate inference and output bounds -/

theorem membresia_agregada_de_cero (s : Label → ℝ) (hz : ∀ e, s e = 0) (u : ℝ) :
    membresia_agregada s u = 0 := by
  rw [membresia_agregada_unfold]
  rw [hz, hz, hz, hz, hz]
  rw [min_eq_left (fuerza_mf_nonneg Label.NG u), min_eq_left (fuerza_mf_nonneg Label.NP u),
    min_eq_left (fuerza_mf_nonneg Label.Z u), min_eq_left (fuerza_mf_nonneg Label.PP u),
    min_eq_left (fuerza_mf_nonneg Label.PG u)]
  norm_num

theorem defuzz_mem_Icc (s : Label → ℝ) : -50 ≤ defuzz s ∧ defuzz s ≤ 50 := by
  unfold defuzz
  split_ifs with h
  · norm_num
  · have hden0 : 0 ≤ defuzz_den s := by
      unfold defuzz_den
      rw [sum_map_range]
      exact Finset.sum_nonneg fun k _ => membresia_agregada_nonneg s _
    have hden : 0 < defuzz_den s := lt_of_le_of_ne hden0 (Ne.symm h)
    have hub : defuzz_num s ≤ 50 * defuzz_den s := by
      unfold defuzz_num defuzz_den
      rw [sum_map_range, sum_map_range, Finset.mul_sum]
      apply Finset.sum_le_sum
      intro k hk
      have hk' : (k : ℝ) ≤ 199 := by
        exact_mod_cast Nat.le_of_lt_succ (Finset.mem_range.mp hk)
      have hu : fuerza_universo k ≤ 50 := by unfold fuerza_universo; linarith
      exact mul_le_mul_of_nonneg_right hu (membresia_agregada_nonneg s _)
    have hlb : (-50) * defuzz_den s ≤ defuzz_num s := by
      unfold defuzz_num defuzz_den
      rw [sum_map_range, sum_map_range, Finset.mul_sum]
      apply Finset.sum_le_sum
      intro k hk
      have hk0 : (0 : ℝ) ≤ (k : ℝ) := Nat.cast_nonneg k
      have hu : -50 ≤ fuerza_universo k := by unfold fuerza_universo; linarith
      exact mul_le_mul_of_nonneg_right hu (membresia_agregada_nonneg s _)
    constructor
    · rw [le_div_iff₀ hden]
      linarith
    · rw [div_le_iff₀ hden]
      linarith

theorem calcular_fuerza_mem_Icc (a v : ℝ) :
    -50 ≤ calcular_fuerza a v ∧ calcular_fuerza a v ≤ 50 :=
  defuzz_mem_Icc _

theorem grados_normalizar_mem (x : ℝ) :
    -180 ≤ grados (normalizar_angulo x) ∧ grados (normalizar_angulo x) < 180 := by
  obtain ⟨h1, h2⟩ := normalizar_mem x
  have hπ := Real.pi_pos
  unfold grados
  constructor
  · rw [le_div_iff₀ hπ]
    nlinarith
  · rw [div_lt_iff₀ hπ]
    nlinarith

theorem pasos_eq : pasos = 1500 := by
  unfold pasos tiempo_simulacion paso_tiempo
  rw [show (15 : ℝ) / 0.01 = ((1500 : ℤ) : ℝ) by norm_num, Int.floor_intCast]
  rfl

/-! ## Mirror symmetry of the partitions -/

theorem fuerza_mf_espejo (e : Label) (x : ℝ) :
    fuerza_mf e (-x) = fuerza_mf e.espejo x := by
  cases e <;> simp only [fuerza_mf, Label.espejo]
  · rw [trapmf_neg (-50) (-50) (-20) (-10) x (by norm_num) (by norm_num) (by norm_num)]
    norm_num
  · rw [trimf_neg (-20) (-10) 0 x (by norm_num) (by norm_num)]
    norm_num
  · rw [trimf_neg (-10) 0 10 x (by norm_num) (by norm_num)]
    norm_num
  · rw [trimf_neg 0 10 20 x (by norm_num) (by norm_num)]
    norm_num
  · rw [trapmf_neg 10 20 50 50 x (by norm_num) (by norm_num) (by norm_num)]

theorem angulo_mf_espejo (e : Label) (x : ℝ) :
    angulo_mf e (-x) = angulo_mf e.espejo x := by
  have hπ := Real.pi_pos
  cases e <;> simp only [angulo_mf, Label.espejo, radianes]
  · rw [trapmf_neg (-(2.5 * Real.pi)) (-(2.5 * Real.pi)) (-Real.pi) (-(150 * Real.pi / 180)) x
      (le_refl _) (by linarith) (by linarith)]
    norm_num
  · rw [trimf_neg (-Real.pi) (-(90 * Real.pi / 180)) 0 x (by linarith) (by linarith)]
    norm_num
  · rw [trimf_neg (-(30 * Real.pi / 180)) 0 (30 * Real.pi / 180) x (by linarith) (by linarith)]
    norm_num
  · rw [trimf_neg 0 (90 * Real.pi / 180) Real.pi x (by linarith) (by linarith)]
    norm_num
  · rw [trapmf_neg (150 * Real.pi / 180) Real.pi (2.5 * Real.pi) (2.5 * Real.pi) x
      (by linarith) (by linarith) (le_refl _)]

/-! ## Aggregation at zero velocity and its mirror -/

theorem agregado_vel_cero (x : ℝ) :
    agregado x 0 = svec 0 (max (angulo_mf Label.PP x) (angulo_mf Label.PG x))
      (angulo_mf Label.Z x) (max (angulo_mf Label.NG x) (angulo_mf Label.NP x)) 0 := by
  funext e
  cases e
  case NG =>
    rw [agregado_NG]
    simp only [fuerza_activacion, velocidad_mf_PG_cero, velocidad_mf_PP_cero, svec]
    rw [min_eq_right (angulo_mf_nonneg Label.PP x), min_eq_right (angulo_mf_nonneg Label.PG x)]
    norm_num
  case NP =>
    rw [agregado_NP]
    simp only [fuerza_activacion, velocidad_mf_Z_cero, velocidad_mf_PP_cero, svec]
    rw [min_eq_left (angulo_mf_le_one Label.PP x), min_eq_right (angulo_mf_nonneg Label.PP x),
      min_eq_left (angulo_mf_le_one Label.PG x),
      max_eq_left (angulo_mf_nonneg Label.PG x), max_eq_right (angulo_mf_nonneg Label.PG x)]
  case Z =>
    rw [agregado_Z]
    simp only [fuerza_activacion, velocidad_mf_Z_cero, svec]
    rw [min_eq_left (angulo_mf_le_one Label.Z x), max_eq_left (angulo_mf_nonneg Label.Z x)]
  case PP =>
    rw [agregado_PP]
    simp only [fuerza_activacion, velocidad_mf_Z_cero, velocidad_mf_NP_cero,
      velocidad_mf_NG_cero, svec]
    rw [min_eq_left (angulo_mf_le_one Label.NG x), min_eq_right (angulo_mf_nonneg Label.NP x),
      min_eq_left (angulo_mf_le_one Label.NP x), min_eq_right (angulo_mf_nonneg Label.Z x)]
    norm_num
    rw [max_eq_left (angulo_mf_nonneg Label.NP x)]
  case PG =>
    rw [agregado_PG]
    simp only [fuerza_activacion, velocidad_mf_NG_cero, velocidad_mf_NP_cero, svec]
    rw [min_eq_right (angulo_mf_nonneg Label.NG x), min_eq_right (angulo_mf_nonneg Label.NP x)]
    norm_num

theorem agregado_neg_vel_cero (x : ℝ) :
    agregado (-x) 0 = fun e => agregado x 0 e.espejo := by
  funext e
  rw [agregado_vel_cero, agregado_vel_cero]
  cases e <;>
    simp [svec, Label.espejo, angulo_mf_espejo Label.NG x, angulo_mf_espejo Label.NP x,
      angulo_mf_espejo Label.Z x, angulo_mf_espejo Label.PP x, angulo_mf_espejo Label.PG x,
      max_comm]

set_option maxHeartbeats 1000000 in
theorem membresia_espejo (s : Label → ℝ) (u : ℝ) :
    membresia_agregada (fun e => s e.espejo) u = membresia_agregada s (-u) := by
  rw [membresia_agregada_unfold, membresia_agregada_unfold]
  simp only [Label.espejo, fuerza_mf_espejo Label.NG u, fuerza_mf_espejo Label.NP u,
    fuerza_mf_espejo Label.Z u, fuerza_mf_espejo Label.PP u, fuerza_mf_espejo Label.PG u]
  simp only [max_comm, max_left_comm, max_assoc]

/-! ## Reflection of the defuzzification sums -/

theorem fuerza_universo_cero : fuerza_universo 0 = -50 := by
  norm_num [fuerza_universo]

theorem fuerza_universo_reflect (j : ℕ) (h : j < 199) :
    fuerza_universo (199 - j) = -(fuerza_universo (j + 1)) := by
  unfold fuerza_universo
  have hc : ((199 - j : ℕ) : ℝ) = 199 - (j : ℝ) := by
    rw [Nat.cast_sub (le_of_lt h)]
    norm_num
  rw [hc]
  push_cast
  ring

theorem sum_univ_reflect (μ : ℝ → ℝ) (h50 : μ 50 = 0) (hm50 : μ (-50) = 0) :
    (∑ k ∈ Finset.range 200, μ (-(fuerza_universo k)))
      = ∑ k ∈ Finset.range 200, μ (fuerza_universo k) := by
  rw [show (200:ℕ) = 199+1 from rfl,
    Finset.sum_range_succ' (fun k => μ (-(fuerza_universo k))) 199,
    Finset.sum_range_succ' (fun k => μ (fuerza_universo k)) 199,
    fuerza_universo_cero]
  have hpt : ∀ j ∈ Finset.range 199, μ (-(fuerza_universo (j + 1)))
      = (fun i => μ (fuerza_universo (i + 1))) (199 - 1 - j) := by
    intro j hj
    have hj' : j < 199 := Finset.mem_range.mp hj
    have h1 : (199 - 1 - j) + 1 = 199 - j := by omega
    simp only [h1]
    rw [fuerza_universo_reflect j hj']
  rw [Finset.sum_congr rfl hpt,
    Finset.sum_range_reflect (fun i => μ (fuerza_universo (i + 1))) 199]
  norm_num [h50, hm50]

theorem sum_univ_reflect_mul (μ : ℝ → ℝ) (h50 : μ 50 = 0) (hm50 : μ (-50) = 0) :
    (∑ k ∈ Finset.range 200, fuerza_universo k * μ (-(fuerza_universo k)))
      = -(∑ k ∈ Finset.range 200, fuerza_universo k * μ (fuerza_universo k)) := by
  rw [show (200:ℕ) = 199+1 from rfl,
    Finset.sum_range_succ' (fun k => fuerza_universo k * μ (-(fuerza_universo k))) 199,
    Finset.sum_range_succ' (fun k => fuerza_universo k * μ (fuerza_universo k)) 199,
    fuerza_universo_cero]
  have hpt : ∀ j ∈ Finset.range 199, fuerza_universo (j + 1) * μ (-(fuerza_universo (j + 1)))
      = (fun i => -(fuerza_universo (i + 1) * μ (fuerza_universo (i + 1)))) (199 - 1 - j) := by
    intro j hj
    have hj' : j < 199 := Finset.mem_range.mp hj
    have h1 : (199 - 1 - j) + 1 = 199 - j := by omega
    simp only [h1]
    rw [fuerza_universo_reflect j hj']
    ring
  rw [Finset.sum_congr rfl hpt,
    Finset.sum_range_reflect (fun i => -(fuerza_universo (i + 1) * μ (fuerza_universo (i + 1)))) 199,
    Finset.sum_neg_distrib]
  norm_num [h50, hm50]

/-! ## Antisymmetry of defuzzification for mirror-free outer strengths -/

theorem membresia_agregada_cincuenta (s : Label → ℝ) (hPG : s Label.PG = 0) :
    membresia_agregada s 50 = 0 := by
  rw [membresia_agregada_unfold, hPG]
  norm_num [fuerza_mf, trimf, trapmf]

theorem membresia_agregada_menos_cincuenta (s : Label → ℝ) (hNG : s Label.NG = 0) :
    membresia_agregada s (-50) = 0 := by
  rw [membresia_agregada_unfold, hNG]
  norm_num [fuerza_mf, trimf, trapmf]

theorem defuzz_espejo (s : Label → ℝ) (hNG : s Label.NG = 0) (hPG : s Label.PG = 0) :
    defuzz (fun e => s e.espejo) = -(defuzz s) := by
  have h50 : membresia_agregada s 50 = 0 := membresia_agregada_cincuenta s hPG
  have hm50 : membresia_agregada s (-50) = 0 := membresia_agregada_menos_cincuenta s hNG
  have hden : defuzz_den (fun e => s e.espejo) = defuzz_den s := by
    unfold defuzz_den
    rw [sum_map_range, sum_map_range]
    calc (∑ k ∈ Finset.range 200, membresia_agregada (fun e => s e.espejo) (fuerza_universo k))
        = ∑ k ∈ Finset.range 200, membresia_agregada s (-(fuerza_universo k)) := by
          exact Finset.sum_congr rfl fun k _ => membresia_espejo s (fuerza_universo k)
      _ = ∑ k ∈ Finset.range 200, membresia_agregada s (fuerza_universo k) :=
          sum_univ_reflect _ h50 hm50
  have hnum : defuzz_num (fun e => s e.espejo) = -(defuzz_num s) := by
    unfold defuzz_num
    rw [sum_map_range, sum_map_range]
    calc (∑ k ∈ Finset.range 200,
          fuerza_universo k * membresia_agregada (fun e => s e.espejo) (fuerza_universo k))
        = ∑ k ∈ Finset.range 200,
            fuerza_universo k * membresia_agregada s (-(fuerza_universo k)) := by
          exact Finset.sum_congr rfl fun k _ => by rw [membresia_espejo s (fuerza_universo k)]
      _ = -(∑ k ∈ Finset.range 200,
            fuerza_universo k * membresia_agregada s (fuerza_universo k)) :=
          sum_univ_reflect_mul _ h50 hm50
  unfold defuzz
  rw [hden, hnum]
  split_ifs with h
  · norm_num
  · rw [neg_div]

/-! ## Antisymmetry of the controller at zero velocity -/

theorem inferir_neg_vel_cero {x : ℝ} : inferir (-x) 0 = -(inferir x 0) := by
  unfold inferir
  rw [agregado_neg_vel_cero]
  apply defuzz_espejo
  · rw [agregado_vel_cero]
    rfl
  · rw [agregado_vel_cero]
    rfl

/-! ## Structure of the simulation loop -/

theorem bucle_longitud (n : ℕ) : ∀ θ v : ℝ,
    (bucle θ v n).1.length = n ∧ (bucle θ v n).2.1.length = n ∧
      (bucle θ v n).2.2.length = n := by
  induction n with
  | zero => intro θ v; simp [bucle]
  | succ n ih =>
    intro θ v
    simp only [bucle, List.length_cons]
    exact ⟨by rw [(ih _ _).1], by rw [(ih _ _).2.1], by rw [(ih _ _).2.2]⟩

theorem bucle_cotas (n : ℕ) : ∀ θ v : ℝ,
    (∀ x ∈ (bucle θ v n).1, -180 ≤ x ∧ x < 180) ∧
    (∀ F ∈ (bucle θ v n).2.2, -50 ≤ F ∧ F ≤ 50) := by
  induction n with
  | zero =>
    intro θ v
    constructor <;> intro x hx <;> simp [bucle] at hx
  | succ n ih =>
    intro θ v
    constructor
    · intro x hx
      simp only [bucle, List.mem_cons] at hx
      rcases hx with h | h
      · rw [h]
        exact grados_normalizar_mem _
      · exact (ih _ _).1 x h
    · intro F hF
      simp only [bucle, List.mem_cons] at hF
      rcases hF with h | h
      · rw [h]
        exact calcular_fuerza_mem_Icc θ v
      · exact (ih _ _).2 F h

theorem estado_succ_shift (θ v : ℝ) (i : ℕ) :
    estado θ v (i + 1) = estado (paso θ v).1 (paso θ v).2.1 i := by
  induction i with
  | zero => rfl
  | succ i ih =>
    show (let s := estado θ v (i + 1); let p := paso s.1 s.2; (p.1, p.2.1)) = _
    simp only [ih]
    rfl

theorem bucle_getD (n : ℕ) : ∀ θ v : ℝ, ∀ i, i < n →
    (bucle θ v n).2.2.getD i 0 = calcular_fuerza (estado θ v i).1 (estado θ v i).2 ∧
    (bucle θ v n).1.getD i 0 = grados (normalizar_angulo (estado θ v (i + 1)).1) ∧
    (bucle θ v n).2.1.getD i 0 = grados ((estado θ v (i + 1)).2) := by
  induction n with
  | zero => intro θ v i hi; exact absurd hi (Nat.not_lt_zero i)
  | succ n ih =>
    intro θ v i hi
    cases i with
    | zero => exact ⟨rfl, rfl, rfl⟩
    | succ i =>
      have hi' : i < n := by omega
      have hrec := ih (paso θ v).1 (paso θ v).2.1 i hi'
      simp only [bucle, List.getD_cons_succ]
      rw [estado_succ_shift θ v i, estado_succ_shift θ v (i + 1)]
      exact hrec

/-! ## Supporting facts for the end-to-end scenario -/

/-- `simular 175 0`: the three histories have length exactly 1500, every
recorded angle lies in `[-180, 180)` and every recorded force in `[-50, 50]`. -/
theorem simular_longitudes_y_cotas :
    (simular 175 0).1.length = 1500 ∧ (simular 175 0).2.1.length = 1500 ∧
    (simular 175 0).2.2.length = 1500 ∧
    (∀ x ∈ (simular 175 0).1, -180 ≤ x ∧ x < 180) ∧
    (∀ F ∈ (simular 175 0).2.2, -50 ≤ F ∧ F ≤ 50) := by
  unfold simular
  rw [pasos_eq]
  exact ⟨(bucle_longitud 1500 _ _).1, (bucle_longitud 1500 _ _).2.1,
    (bucle_longitud 1500 _ _).2.2, (bucle_cotas 1500 _ _).1, (bucle_cotas 1500 _ _).2⟩

/-! ## The claims -/

/-- Claim C1, counterexample: the claim asserts `normalizar_angulo` lands in
the interval open at `-pi` and closed at `pi`; but at the input `pi` the
function returns `-pi` itself, which is not greater than `-pi`. -/
theorem C1_contraejemplo :
    normalizar_angulo Real.pi = -Real.pi ∧ ¬(-Real.pi < normalizar_angulo Real.pi) := by
  refine ⟨normalizar_pi, ?_⟩
  rw [normalizar_pi]
  exact lt_irrefl _

/-- Claim C1 (amended): `normalizar_angulo` is idempotent, and its value lies
in the half-open interval `[-pi, pi)` (not `(-pi, pi]` as claimed). -/
theorem C1_enmendado (θ : ℝ) :
    normalizar_angulo (normalizar_angulo θ) = normalizar_angulo θ ∧
    -Real.pi ≤ normalizar_angulo θ ∧ normalizar_angulo θ < Real.pi := by
  obtain ⟨h1, h2⟩ := normalizar_mem θ
  exact ⟨normalizar_eq_self h1 h2, h1, h2⟩

/-- Claim C3: the inference is total, and in the degenerate case where the
aggregated output membership is identically zero over the force universe the
engine returns force 0 instead of dividing by zero. -/
theorem C3_fuerza_degenerada (a v : ℝ)
    (h : ∀ u : ℝ, membresia_agregada (agregado (normalizar_angulo a) v) u = 0) :
    calcular_fuerza a v = 0 := by
  have hden : defuzz_den (agregado (normalizar_angulo a) v) = 0 := by
    unfold defuzz_den
    apply List.sum_eq_zero
    intro x hx
    obtain ⟨k, _, hk⟩ := List.mem_map.mp hx
    rw [← hk, h]
  unfold calcular_fuerza inferir defuzz
  rw [if_pos hden]

/-- Claim C3, witness: at angle 0 and velocity 20 (outside every velocity
label's support) no rule fires, the aggregated membership vanishes
identically, and the returned force is 0. -/
theorem C3_fuerza_degenerada_testigo :
    (∀ u : ℝ, membresia_agregada (agregado (normalizar_angulo 0) 20) u = 0) ∧
    calcular_fuerza 0 20 = 0 := by
  have h : ∀ u : ℝ, membresia_agregada (agregado (normalizar_angulo 0) 20) u = 0 := by
    intro u
    rw [normalizar_cero, agregado_cero_veinte]
    apply membresia_agregada_de_cero
    intro e
    cases e <;> norm_num [svecQ]
  exact ⟨h, C3_fuerza_degenerada 0 20 h⟩

/-- Claim C4: the inference through the shared simulator object is
deterministic and stateless at the interface — the returned force does not
depend on the state carried over from earlier calls, two successive calls
with the same inputs return the same output, and the result coincides with
the pure function `calcular_fuerza`. -/
theorem C4_inferencia_pura (a v : ℝ) (s t : Simulador) :
    (calcular_fuerza_sim a v s).1 = (calcular_fuerza_sim a v t).1 ∧
    (calcular_fuerza_sim a v (calcular_fuerza_sim a v s).2).1
      = (calcular_fuerza_sim a v s).1 ∧
    (calcular_fuerza_sim a v s).1 = calcular_fuerza a v :=
  ⟨rfl, rfl, rfl⟩

/-- Claim C5, counterexample: antisymmetry fails.  At angle 0 and velocity
-2 the controller outputs force 10, while at the mirrored input it outputs
0 (the rule base has rules (Z,NG) and (Z,NP) but not their mirrors (Z,PG)
and (Z,PP)), so the defect is 10, far beyond the 0.5 sampling step of the
force universe. -/
theorem C5_contraejemplo :
    calcular_fuerza 0 (-2) = 10 ∧ calcular_fuerza (-0) (-(-2)) = 0 ∧
    |calcular_fuerza 0 (-2) + calcular_fuerza (-0) (-(-2))| = 10 := by
  have h2 : calcular_fuerza (-0) (-(-2)) = 0 := by
    rw [show ((-0 : ℝ)) = 0 by norm_num, show (-(-2) : ℝ) = 2 by norm_num]
    exact calcular_fuerza_cero_dos
  refine ⟨calcular_fuerza_cero_menos_dos, h2, ?_⟩
  rw [calcular_fuerza_cero_menos_dos, h2]
  norm_num

/-- Claim C5 (amended): antisymmetry does hold — exactly, not only
approximately — on the zero-velocity axis, for every angle whose
normalization avoids the branch point `-pi`. -/
theorem C5_enmendado (a : ℝ) (h : -Real.pi < normalizar_angulo a) :
    calcular_fuerza a 0 = -(calcular_fuerza (-a) (-0)) := by
  rw [neg_zero]
  unfold calcular_fuerza
  rw [normalizar_neg h, inferir_neg_vel_cero, neg_neg]

/-- Claim C5, witness for the amended statement at angle 1. -/
theorem C5_enmendado_testigo :
    -Real.pi < normalizar_angulo 1 ∧ calcular_fuerza 1 0 = -(calcular_fuerza (-1) (-0)) := by
  have hπ := Real.pi_pos
  have hn : normalizar_angulo 1 = 1 :=
    normalizar_eq_self (by linarith) (by linarith [Real.pi_gt_three])
  have h : -Real.pi < normalizar_angulo 1 := by
    rw [hn]
    linarith
  exact ⟨h, C5_enmendado 1 h⟩

/-- Claim C6: each step updates velocity first by `acceleration * dt`, then
the angle by `velocity * dt + 0.5 * acceleration * dt^2` with the already
updated velocity, the acceleration being evaluated once from the pre-update
state. -/
theorem C6_paso_integracion (θ v : ℝ) :
    (paso θ v).2.1
      = v + calcular_aceleracion_angular θ v (calcular_fuerza θ v) * paso_tiempo ∧
    (paso θ v).1
      = θ + (v + calcular_aceleracion_angular θ v (calcular_fuerza θ v) * paso_tiempo)
          * paso_tiempo
        + 0.5 * calcular_aceleracion_angular θ v (calcular_fuerza θ v) * paso_tiempo ^ 2 :=
  ⟨rfl, rfl⟩

/-- Claim C7: `calcular_aceleracion_angular` returns exactly the cart-pole
quotient with the angle normalized before every trigonometric evaluation,
and in particular vanishes at angle 0, velocity 0, force 0. -/
theorem C7_aceleracion_formula :
    (∀ a v f : ℝ, calcular_aceleracion_angular a v f =
      (gravedad * Real.sin (normalizar_angulo a) + Real.cos (normalizar_angulo a) *
        ((-f - masa_pendulo * longitud * v ^ 2 * Real.sin (normalizar_angulo a)) /
          (masa_carro + masa_pendulo))) /
      (longitud * (4 / 3 - masa_pendulo * Real.cos (normalizar_angulo a) ^ 2 /
        (masa_carro + masa_pendulo)))) ∧
    calcular_aceleracion_angular 0 0 0 = 0 := by
  constructor
  · intro a v f
    rfl
  · unfold calcular_aceleracion_angular
    rw [normalizar_cero]
    norm_num [Real.sin_zero, Real.cos_zero]

/-- Claim C8: the zero-input fixed point — at angle 0 and velocity 0 only
the rule (Z, Z -> Z) fires and the centroid of the clipped symmetric output
set is exactly 0. -/
theorem C8_fuerza_cero : calcular_fuerza 0 0 = 0 :=
  calcular_fuerza_cero_cero

/-- Claim C9: the controller is `2*pi`-periodic in its angle argument,
because the angle is normalized before fuzzification. -/
theorem C9_periodicidad (θ v : ℝ) (k : ℤ) :
    calcular_fuerza (θ + 2 * Real.pi * k) v = calcular_fuerza θ v := by
  unfold calcular_fuerza
  rw [normalizar_add_two_pi_int]

/-- Claim C10: at every step index, the recorded force is the one computed
from the pre-update state, while the recorded angle (degrees, normalized)
and velocity (degrees) are the post-update state. -/
theorem C10_alineacion_historial (a0 v0 : ℝ) (i : ℕ) (hi : i < pasos) :
    (simular a0 v0).2.2.getD i 0
      = calcular_fuerza (estado (radianes a0) v0 i).1 (estado (radianes a0) v0 i).2 ∧
    (simular a0 v0).1.getD i 0
      = grados (normalizar_angulo (estado (radianes a0) v0 (i + 1)).1) ∧
    (simular a0 v0).2.1.getD i 0 = grados ((estado (radianes a0) v0 (i + 1)).2) := by
  unfold simular
  exact bucle_getD pasos (radianes a0) v0 i hi

/-- Claim C10, witness at the first step of the default scenario. -/
theorem C10_testigo :
    0 < pasos ∧
    ((simular 175 0).2.2.getD 0 0
      = calcular_fuerza (estado (radianes 175) 0 0).1 (estado (radianes 175) 0 0).2 ∧
    (simular 175 0).1.getD 0 0
      = grados (normalizar_angulo (estado (radianes 175) 0 (0 + 1)).1) ∧
    (simular 175 0).2.1.getD 0 0 = grados ((estado (radianes 175) 0 (0 + 1)).2)) := by
  have h : 0 < pasos := by
    rw [pasos_eq]
    norm_num
  exact ⟨h, C10_alineacion_historial 175 0 0 h⟩

end TP2
